import Mathlib

/-
Verification of the bulk command-batching program
(src/CommandProcessor.h, src/bulk.cxx).

The embedding models the two stateful classes of the program and the
observable calls they make:

  * ConsoleInput       — the block-depth gate (src/CommandProcessor.h:63-85)
  * BatchCommandProcessor — the batching engine (src/CommandProcessor.h:87-163)

Commands are modelled by their text (the timestamp plays no role in any
claim).  Subscriber pointers (Output *) are modelled as Option Handle,
with none standing for a null pointer.  Every call the engine makes into
a subscriber is recorded as an event:

  * Ev.update h b  — subscriber h received update(b)  (notify, line 137-143)
  * Ev.render o    — the render loop called o->ProcessCommand()
                     (DumpBatch, line 153-155); o is the raw pointer,
                     dereferenced there without a null check
  * Ev.flush b     — marks that DumpBatch took its non-empty branch and
                     delivered the pending batch b as one closure
                     (DumpBatch, line 152)
-/

namespace Bulk

/-- text of one command; the timestamp field of struct Command is never
inspected by the batching logic, so it is omitted. -/
abbrev Cmd := String

/-- identity of a non-null Output pointer. -/
abbrev Handle := Nat

/-- observable calls from the engine into its subscribers; flush marks a
closure (the non-empty branch of DumpBatch) carrying the closed batch. -/
inductive Ev where
  | update (h : Handle) (batch : List Cmd)
  | render (o : Option Handle)
  | flush (batch : List Cmd)
deriving DecidableEq

/-- state of BatchCommandProcessor: m_bulkSize, m_blockForced, m_commands,
m_subscribers (src/CommandProcessor.h:160-162 and the base class field). -/
structure Engine where
  bulkSize : Int
  blockForced : Bool
  commands : List Cmd
  subscribers : List (Option Handle)
deriving DecidableEq

/-- static_cast of a C++ int to size_t: reduction modulo 2^64
(src/CommandProcessor.h:118). -/
def toSizeT (i : Int) : Nat := (i % (2 ^ 64 : Int)).toNat

/-- the constructor BatchCommandProcessor(bulkSize, next)
(src/CommandProcessor.h:89-92): block flag false, no pending commands,
no subscribers yet. -/
def mkEngine (bulkSize : Int) : Engine :=
  { bulkSize := bulkSize, blockForced := false, commands := [], subscribers := [] }

/-- notify (src/CommandProcessor.h:137-143): update every subscriber with
the current pending batch, skipping null pointers. -/
def notify (e : Engine) : List Ev :=
  e.subscribers.filterMap (fun o => o.map (fun h => Ev.update h e.commands))

/-- ClearBatch (src/CommandProcessor.h:146-149): clear the pending batch,
then notify. -/
def ClearBatch (e : Engine) : Engine × List Ev :=
  let e2 : Engine := { e with commands := [] }
  (e2, notify e2)

/-- DumpBatch (src/CommandProcessor.h:151-158): when the pending batch is
non-empty, call ProcessCommand() on every subscriber pointer with no null
check (recorded as one flush event and one render event per pointer);
then ClearBatch. -/
def DumpBatch (e : Engine) : Engine × List Ev :=
  let rends : List Ev :=
    if e.commands = [] then []
    else Ev.flush e.commands :: e.subscribers.map Ev.render
  let c := ClearBatch e
  (c.1, rends ++ c.2)

/-- StartBlock (src/CommandProcessor.h:103-106): set m_blockForced and dump. -/
def StartBlock (e : Engine) : Engine × List Ev :=
  DumpBatch { e with blockForced := true }

/-- FinishBlock (src/CommandProcessor.h:108-111): clear m_blockForced and dump. -/
def FinishBlock (e : Engine) : Engine × List Ev :=
  DumpBatch { e with blockForced := false }

/-- BatchCommandProcessor::ProcessCommand (src/CommandProcessor.h:113-121):
append, notify, and dump when the block flag is off and the batch size has
reached static_cast of m_bulkSize to size_t. -/
def ProcessCommand (e : Engine) (c : Cmd) : Engine × List Ev :=
  let e1 : Engine := { e with commands := e.commands ++ [c] }
  let u := notify e1
  if e1.blockForced = false ∧ toSizeT e1.bulkSize ≤ e1.commands.length then
    let d := DumpBatch e1
    (d.1, u ++ d.2)
  else
    (e1, u)

/-- subscribe (src/CommandProcessor.h:123-127): append the pointer unless
it is null. -/
def subscribe (e : Engine) (o : Option Handle) : Engine :=
  if o.isSome then { e with subscribers := e.subscribers ++ [o] } else e

/-- the erase-remove call of unSubscribe (src/CommandProcessor.h:131-133):
std::remove shifts the kept elements to the front and leaves the tail slots
with their old contents, so after it the vector memory is
kept ++ subs.drop kept.length; erase is then called with the single
iterator std::remove returned (the code omits the second iterator of the
erase-remove idiom), which removes exactly one element at index
kept.length — and when nothing matched that iterator is end(), where
erase has undefined behaviour, modelled as none. -/
def eraseRemove (h : Handle) (subs : List (Option Handle)) :
    Option (List (Option Handle)) :=
  let kept := subs.filter (fun x => x ≠ some h)
  if kept.length = subs.length then none
  else some (kept ++ subs.drop (kept.length + 1))

/-- unSubscribe (src/CommandProcessor.h:129-135): null pointers are
ignored; otherwise the erase-remove call runs on the subscriber vector. -/
def unSubscribe (e : Engine) (o : Option Handle) : Option Engine :=
  match o with
  | none => some e
  | some h => (eraseRemove h e.subscribers).map
      (fun l => { e with subscribers := l })

/-- std::remove(begin(), end(), o) on the raw vector memory, where buf is
the whole buffer and size the logical element count: the algorithm copies
each non-matching element of the logical range forward, so slots before
kept.length receive the kept elements, every slot from kept.length on
keeps its old contents, and the returned iterator sits at kept.length. -/
def stdRemoveMem (h : Handle) (buf : List (Option Handle)) (size : Nat) :
    List (Option Handle) × Nat :=
  let kept := (buf.take size).filter (fun x => x ≠ some h)
  (kept ++ buf.drop kept.length, kept.length)

/-- vector::erase at position i of the raw memory: erase copies slots
i+1 .. size-1 one place left and decrements the size; the last logical
slot is only read from, so as a now-stale slot it keeps its old pointer
bits (Output* is trivially destructible), like every slot past the size.
At i = size this is erase(end()), undefined behaviour, modelled none. -/
def eraseAtMem (buf : List (Option Handle)) (size i : Nat) :
    Option (List (Option Handle) × Nat) :=
  if i < size then
    some (buf.take i ++ (buf.take size).drop (i + 1) ++ buf.drop (size - 1),
      size - 1)
  else none

/-- one unSubscribe call (src/CommandProcessor.h:129-135) acting on the
raw vector memory: null pointers are ignored, otherwise the erase-remove
call of lines 131-133 runs — erase with the single iterator std::remove
returned, which is end() when nothing matched. -/
def unSubscribeMem (o : Option Handle) (buf : List (Option Handle))
    (size : Nat) : Option (List (Option Handle) × Nat) :=
  match o with
  | none => some (buf, size)
  | some h =>
    let r := stdRemoveMem h buf size
    eraseAtMem r.1 size r.2

/-- the destructor loop (src/CommandProcessor.h:98-100): the range-for
captures the begin and end pointers of m_subscribers once, then each
iteration dereferences the raw slot at the current pointer — which after
an earlier erase may hold a shifted element or a stale value — and calls
unSubscribe on it, while unSubscribe keeps mutating the same buffer.
fuel counts the remaining iterations up to the captured end pointer. -/
def destructorIter : Nat → Nat → List (Option Handle) × Nat →
    Option (List (Option Handle) × Nat)
  | _, 0, st => some st
  | ptr, fuel + 1, st =>
    (unSubscribeMem (st.1.getD ptr none) st.1 st.2).bind
      (destructorIter (ptr + 1) fuel)

/-- the destructor of BatchCommandProcessor (src/CommandProcessor.h:94-101):
dump unless a block is open, then loop unSubscribe over the subscriber
vector.  The loop iterates the captured pointer range over the very
buffer unSubscribe mutates; the undefinedness of an erase at end() is
threaded through Option, and the surviving engine keeps the logical
prefix of the final buffer as its subscriber list. -/
def destructor (e : Engine) : Option Engine × List Ev :=
  let p := if e.blockForced = false then DumpBatch e else (e, [])
  let n := p.1.subscribers.length
  ((destructorIter 0 n (p.1.subscribers, n)).map
    (fun st => { p.1 with subscribers := st.1.take st.2 }), p.2)

/-- signal sent by the gate to its next processor. -/
inductive Sig where
  | start
  | finish
  | fwd (c : Cmd)
deriving DecidableEq

/-- ConsoleInput::ProcessCommand (src/CommandProcessor.h:69-82), as the
depth update plus the at-most-one signal it sends to the next processor:
on a left brace the old depth is post-incremented and StartBlock fires
only when the old depth was 0; on a right brace the depth is
pre-decremented and FinishBlock fires only when the new depth is 0; any
other text is forwarded and neither marker ever is. -/
def gateStep (d : Int) (c : Cmd) : Int × List Sig :=
  if c = "\x7b" then (d + 1, if d = 0 then [Sig.start] else [])
  else if c = "\x7d" then (d - 1, if d - 1 = 0 then [Sig.finish] else [])
  else (d, [Sig.fwd c])

/-- dispatch of one gate signal into the engine. -/
def applySig (e : Engine) (s : Sig) : Engine × List Ev :=
  match s with
  | Sig.start => StartBlock e
  | Sig.finish => FinishBlock e
  | Sig.fwd c => ProcessCommand e c

/-- dispatch of a signal list into the engine, collecting events. -/
def applySigs (e : Engine) : List Sig → Engine × List Ev
  | [] => (e, [])
  | s :: t =>
    let r := applySig e s
    let r2 := applySigs r.1 t
    (r2.1, r.2 ++ r2.2)

/-- one command through the gate wired to the engine, as RunBulk wires
ConsoleInput to BatchCommandProcessor (src/bulk.cxx:7-12). -/
def pipeStep (p : Int × Engine) (c : Cmd) : (Int × Engine) × List Ev :=
  let g := gateStep p.1 c
  let r := applySigs p.2 g.2
  ((g.1, r.1), r.2)

/-- a whole input stream through the gate and engine. -/
def runPipe : Int × Engine → List Cmd → (Int × Engine) × List Ev
  | p, [] => (p, [])
  | p, c :: cs =>
    let r := pipeStep p c
    let r2 := runPipe r.1 cs
    (r2.1, r.2 ++ r2.2)

/-- a command sequence fed directly to the engine. -/
def runEngine : Engine → List Cmd → Engine × List Ev
  | e, [] => (e, [])
  | e, c :: cs =>
    let r := ProcessCommand e c
    let r2 := runEngine r.1 cs
    (r2.1, r.2 ++ r2.2)

/-- the closed batches among a list of events. -/
def flushesOf (evs : List Ev) : List (List Cmd) :=
  evs.filterMap (fun ev => match ev with
    | Ev.flush b => some b
    | _ => none)

/-- the pointers through which the render loop was invoked. -/
def rendersOf (evs : List Ev) : List (Option Handle) :=
  evs.filterMap (fun ev => match ev with
    | Ev.render o => some o
    | _ => none)

/-- the check main applies to the parsed bulk-size argument
(src/bulk.cxx:22-26): atoi yields an int v; only v = 0 is rejected
(message plus exit code 1, modelled as none); every other value reaches
RunBulk and constructs the engine. -/
def mainCheck (v : Int) : Option Int :=
  if v = 0 then none else some v

/-- the subscriber loop of DumpBatch (src/CommandProcessor.h:153-155) when
the render step of a subscriber may fail: the loop body has no handler, so
the first failure aborts the loop and propagates.  Returns the subscribers
whose render step was entered, and whether a failure escaped. -/
def renderLoop (throws : Handle → Bool) : List Handle → List Handle × Bool
  | [] => ([], false)
  | h :: t =>
    if throws h then ([h], true)
    else
      let r := renderLoop throws t
      (h :: r.1, r.2)

/-- states of the engine reachable from the constructor through its public
operations: subscribe, unSubscribe (when its erase-remove call has defined
behaviour), ProcessCommand, StartBlock and FinishBlock. -/
inductive Reach : Engine → Prop where
  | init (bulkSize : Int) : Reach (mkEngine bulkSize)
  | sub {e : Engine} (o : Option Handle) : Reach e → Reach (subscribe e o)
  | unsub {e e' : Engine} (o : Option Handle) :
      Reach e → unSubscribe e o = some e' → Reach e'
  | proc {e : Engine} (c : Cmd) : Reach e → Reach (ProcessCommand e c).1
  | startB {e : Engine} : Reach e → Reach (StartBlock e).1
  | finishB {e : Engine} : Reach e → Reach (FinishBlock e).1

example : gateStep 0 "\x7b" = (1, [Sig.start]) := by decide
example : gateStep 1 "\x7b" = (2, []) := by decide
example : gateStep 1 "\x7d" = (0, [Sig.finish]) := by decide
example : gateStep 2 "\x7d" = (1, []) := by decide
example : gateStep 0 "a" = (0, [Sig.fwd "a"]) := by decide
example :
    flushesOf (runPipe (0, subscribe (mkEngine 2) (some 1))
      ["\x7b", "\x7b", "a", "\x7d", "\x7d", "b"]).2 = [["a"]] := by decide
example :
    (runPipe (0, subscribe (mkEngine 2) (some 1))
      ["\x7b", "\x7b", "a", "\x7d", "\x7d", "b"]).1.2.commands = ["b"] := by
  decide
example :
    flushesOf (runEngine (mkEngine 3) ["c1", "c2", "c3", "c4"]).2 =
      [["c1", "c2", "c3"]] := by decide
example : eraseRemove 1 [some 1, some 2, some 1] = some [some 2, some 1] := by
  decide
example : eraseRemove 3 [some 1, some 2] = none := by decide
example :
    (destructor ⟨3, false, [], [some 1, some 2]⟩).1 =
      some ⟨3, false, [], []⟩ := by decide
example :
    (destructor ⟨3, false, [], [some 1, some 1, some 2]⟩).1 =
      some ⟨3, false, [], []⟩ := by decide
example : unSubscribeMem (some 1) [some 1, some 2, some 3] 3 =
    some ([some 2, some 3, some 3], 2) := by decide
example : unSubscribeMem (some 3) [some 2, some 3, some 3] 2 =
    some ([some 2, some 3, some 3], 1) := by decide
example : unSubscribeMem (some 3) [some 2, some 3, some 3] 1 = none := by
  decide

/-! helper lemmas about the event projections and the engine operations -/

@[simp]
theorem flushesOf_nil : flushesOf [] = [] := rfl

@[simp]
theorem rendersOf_nil : rendersOf [] = [] := rfl

@[simp]
theorem flushesOf_append (a b : List Ev) :
    flushesOf (a ++ b) = flushesOf a ++ flushesOf b :=
  List.filterMap_append a b _

@[simp]
theorem rendersOf_append (a b : List Ev) :
    rendersOf (a ++ b) = rendersOf a ++ rendersOf b :=
  List.filterMap_append a b _

@[simp]
theorem flushesOf_flush_cons (b : List Cmd) (l : List Ev) :
    flushesOf (Ev.flush b :: l) = b :: flushesOf l := rfl

@[simp]
theorem rendersOf_flush_cons (b : List Cmd) (l : List Ev) :
    rendersOf (Ev.flush b :: l) = rendersOf l := rfl

@[simp]
theorem flushesOf_map_render (l : List (Option Handle)) :
    flushesOf (l.map Ev.render) = [] := by
  induction l with
  | nil => rfl
  | cons o t ih => simp [flushesOf, ih]

@[simp]
theorem rendersOf_map_render (l : List (Option Handle)) :
    rendersOf (l.map Ev.render) = l := by
  induction l with
  | nil => rfl
  | cons o t ih => simpa [rendersOf] using ih

@[simp]
theorem flushesOf_notify (e : Engine) : flushesOf (notify e) = [] := by
  unfold flushesOf notify
  rw [List.filterMap_filterMap]
  apply List.filterMap_eq_nil_iff.mpr
  intro o _
  cases o <;> rfl

@[simp]
theorem rendersOf_notify (e : Engine) : rendersOf (notify e) = [] := by
  unfold rendersOf notify
  rw [List.filterMap_filterMap]
  apply List.filterMap_eq_nil_iff.mpr
  intro o _
  cases o <;> rfl

@[simp]
theorem DumpBatch_fst (e : Engine) :
    (DumpBatch e).1 = { e with commands := [] } := rfl

theorem DumpBatch_snd (e : Engine) :
    (DumpBatch e).2 =
      (if e.commands = [] then []
       else Ev.flush e.commands :: e.subscribers.map Ev.render) ++
        notify { e with commands := [] } := rfl

@[simp]
theorem flushesOf_DumpBatch (e : Engine) :
    flushesOf (DumpBatch e).2 =
      if e.commands = [] then [] else [e.commands] := by
  rw [DumpBatch_snd]
  split <;> simp

@[simp]
theorem rendersOf_DumpBatch (e : Engine) :
    rendersOf (DumpBatch e).2 =
      if e.commands = [] then [] else e.subscribers := by
  rw [DumpBatch_snd]
  split <;> simp

@[simp]
theorem ProcessCommand_subscribers (e : Engine) (c : Cmd) :
    (ProcessCommand e c).1.subscribers = e.subscribers := by
  unfold ProcessCommand
  dsimp only
  split <;> rfl

@[simp]
theorem ProcessCommand_blockForced (e : Engine) (c : Cmd) :
    (ProcessCommand e c).1.blockForced = e.blockForced := by
  unfold ProcessCommand
  dsimp only
  split <;> rfl

@[simp]
theorem ProcessCommand_bulkSize (e : Engine) (c : Cmd) :
    (ProcessCommand e c).1.bulkSize = e.bulkSize := by
  unfold ProcessCommand
  dsimp only
  split <;> rfl

theorem ProcessCommand_hit (e : Engine) (c : Cmd)
    (hf : e.blockForced = false)
    (hge : toSizeT e.bulkSize ≤ e.commands.length + 1) :
    (ProcessCommand e c).1.commands = [] ∧
    flushesOf (ProcessCommand e c).2 = [e.commands ++ [c]] := by
  unfold ProcessCommand
  dsimp only
  rw [if_pos (by simpa [hf] using hge)]
  simp

theorem ProcessCommand_miss (e : Engine) (c : Cmd)
    (h : ¬(e.blockForced = false ∧ toSizeT e.bulkSize ≤ e.commands.length + 1)) :
    (ProcessCommand e c).1.commands = e.commands ++ [c] ∧
    flushesOf (ProcessCommand e c).2 = [] := by
  unfold ProcessCommand
  dsimp only
  rw [if_neg (by simpa using h)]
  simp

@[simp]
theorem StartBlock_fst (e : Engine) :
    (StartBlock e).1 = { e with blockForced := true, commands := [] } := rfl

@[simp]
theorem FinishBlock_fst (e : Engine) :
    (FinishBlock e).1 = { e with blockForced := false, commands := [] } := rfl

theorem destructor_snd (e : Engine) :
    (destructor e).2 =
      if e.blockForced = false then (DumpBatch e).2 else [] := by
  simp only [destructor]
  split <;> rfl

theorem destructor_fst_false (e : Engine) (hb : e.blockForced = false) :
    (destructor e).1 =
      (destructorIter 0 e.subscribers.length
          (e.subscribers, e.subscribers.length)).map
        (fun st =>
          { e with commands := [], subscribers := st.1.take st.2 }) := by
  simp only [destructor]
  rw [if_pos hb]
  rfl

theorem destructor_fst_true (e : Engine) (hb : e.blockForced = true) :
    (destructor e).1 =
      (destructorIter 0 e.subscribers.length
          (e.subscribers, e.subscribers.length)).map
        (fun st => { e with subscribers := st.1.take st.2 }) := by
  simp only [destructor]
  rw [if_neg (by simp [hb])]

theorem runEngine_cons (e : Engine) (c : Cmd) (cs : List Cmd) :
    runEngine e (c :: cs) =
      ((runEngine (ProcessCommand e c).1 cs).1,
        (ProcessCommand e c).2 ++ (runEngine (ProcessCommand e c).1 cs).2) :=
  rfl

theorem runPipe_cons (p : Int × Engine) (c : Cmd) (cs : List Cmd) :
    runPipe p (c :: cs) =
      ((runPipe (pipeStep p c).1 cs).1,
        (pipeStep p c).2 ++ (runPipe (pipeStep p c).1 cs).2) :=
  rfl

theorem toSizeT_eq_toNat (i : Int) (h1 : 0 ≤ i) (h2 : i < 2 ^ 64) :
    toSizeT i = i.toNat := by
  unfold toSizeT
  rw [Int.emod_eq_of_lt h1 h2]

theorem runEngine_size_spec (cs : List Cmd) (e : Engine)
    (hf : e.blockForced = false) (h0 : 0 < toSizeT e.bulkSize)
    (hlen : e.commands.length < toSizeT e.bulkSize) :
    (∀ b ∈ flushesOf (runEngine e cs).2, b.length = toSizeT e.bulkSize) ∧
    (runEngine e cs).1.commands.length < toSizeT e.bulkSize ∧
    (runEngine e cs).1.blockForced = false ∧
    (runEngine e cs).1.bulkSize = e.bulkSize ∧
    (runEngine e cs).1.subscribers = e.subscribers := by
  induction cs generalizing e with
  | nil => exact ⟨by simp [runEngine], hlen, hf, rfl, rfl⟩
  | cons c cs ih =>
    rw [runEngine_cons]
    dsimp only
    have hbs := ProcessCommand_bulkSize e c
    have hsub := ProcessCommand_subscribers e c
    have hbf := ProcessCommand_blockForced e c
    by_cases hT : toSizeT e.bulkSize ≤ e.commands.length + 1
    · obtain ⟨hc1, hf1⟩ := ProcessCommand_hit e c hf hT
      have hrec := ih (ProcessCommand e c).1 (by rw [hbf]; exact hf)
        (by rw [hbs]; exact h0) (by rw [hc1, hbs]; simpa using h0)
      rw [hbs] at hrec
      refine ⟨?_, hrec.2.1, hrec.2.2.1, hrec.2.2.2.1,
        hrec.2.2.2.2.trans hsub⟩
      intro b hb
      rw [flushesOf_append, hf1, List.mem_append] at hb
      rcases hb with hb | hb
      · rcases List.mem_singleton.mp hb with rfl
        simp only [List.length_append, List.length_cons, List.length_nil]
        omega
      · exact hrec.1 b hb
    · obtain ⟨hc1, hf1⟩ := ProcessCommand_miss e c (fun hx => hT hx.2)
      have hrec := ih (ProcessCommand e c).1 (by rw [hbf]; exact hf)
        (by rw [hbs]; exact h0)
        (by
          rw [hc1, hbs]
          simp only [List.length_append, List.length_cons, List.length_nil]
          omega)
      rw [hbs] at hrec
      refine ⟨?_, hrec.2.1, hrec.2.2.1, hrec.2.2.2.1,
        hrec.2.2.2.2.trans hsub⟩
      intro b hb
      rw [flushesOf_append, hf1, List.nil_append] at hb
      exact hrec.1 b hb

theorem runPipe_no_markers (d : Int) (cs : List Cmd) (e : Engine)
    (hm : ∀ c ∈ cs, c ≠ "\x7b" ∧ c ≠ "\x7d") :
    runPipe (d, e) cs = ((d, (runEngine e cs).1), (runEngine e cs).2) := by
  induction cs generalizing e with
  | nil => rfl
  | cons c cs ih =>
    obtain ⟨h1, h2⟩ := hm c (List.mem_cons_self c cs)
    have hm' : ∀ x ∈ cs, x ≠ "\x7b" ∧ x ≠ "\x7d" :=
      fun x hx => hm x (List.mem_cons_of_mem c hx)
    have hps : pipeStep (d, e) c =
        ((d, (ProcessCommand e c).1), (ProcessCommand e c).2) := by
      unfold pipeStep
      rw [show gateStep d c = (d, [Sig.fwd c]) by simp [gateStep, h1, h2]]
      dsimp only
      unfold applySigs applySigs applySig
      simp
    rw [runPipe_cons, hps]
    dsimp only
    rw [ih (ProcessCommand e c).1 hm', runEngine_cons]

/-! claim theorems -/

/-- C1: for a marker-free command stream through the gate into an engine
with a positive threshold, every batch closed during processing holds
exactly threshold commands, the pending batch stays strictly below the
threshold after every command (so the batch closes exactly when its size
reaches the threshold), and teardown flushes exactly the non-empty
remainder, which is smaller than the threshold. -/
theorem c1_size_triggered_closure (e : Engine) (cs : List Cmd)
    (hpos : 0 < e.bulkSize) (hrange : e.bulkSize < 2 ^ 31)
    (hc : e.commands = []) (hf : e.blockForced = false)
    (hm : ∀ c ∈ cs, c ≠ "\x7b" ∧ c ≠ "\x7d") :
    (∀ b ∈ flushesOf (runPipe (0, e) cs).2, b.length = e.bulkSize.toNat) ∧
    (runPipe (0, e) cs).1.2.commands.length < e.bulkSize.toNat ∧
    flushesOf (destructor (runPipe (0, e) cs).1.2).2 =
      (if (runPipe (0, e) cs).1.2.commands = [] then []
       else [(runPipe (0, e) cs).1.2.commands]) := by
  have hts : toSizeT e.bulkSize = e.bulkSize.toNat :=
    toSizeT_eq_toNat e.bulkSize (le_of_lt hpos) (by omega)
  have h0 : 0 < toSizeT e.bulkSize := by rw [hts]; omega
  rw [runPipe_no_markers 0 cs e hm]
  dsimp only
  have hr := runEngine_size_spec cs e hf h0 (by rw [hc]; simpa using h0)
  refine ⟨by rw [← hts]; exact hr.1, by rw [← hts]; exact hr.2.1, ?_⟩
  rw [destructor_snd, if_pos hr.2.2.1, flushesOf_DumpBatch]

/-- witness for C1: threshold 3 with input cmd1, cmd2, cmd3 gives one
closure of exactly three commands and nothing left for teardown. -/
theorem c1_witness :
    0 < (subscribe (mkEngine 3) (some 1)).bulkSize ∧
    (subscribe (mkEngine 3) (some 1)).bulkSize < 2 ^ 31 ∧
    (subscribe (mkEngine 3) (some 1)).commands = [] ∧
    (subscribe (mkEngine 3) (some 1)).blockForced = false ∧
    (∀ c ∈ ["cmd1", "cmd2", "cmd3"], c ≠ "\x7b" ∧ c ≠ "\x7d") ∧
    ((∀ b ∈ flushesOf (runPipe (0, subscribe (mkEngine 3) (some 1))
        ["cmd1", "cmd2", "cmd3"]).2,
        b.length = (subscribe (mkEngine 3) (some 1)).bulkSize.toNat) ∧
     (runPipe (0, subscribe (mkEngine 3) (some 1))
        ["cmd1", "cmd2", "cmd3"]).1.2.commands.length <
       (subscribe (mkEngine 3) (some 1)).bulkSize.toNat ∧
     flushesOf (destructor (runPipe (0, subscribe (mkEngine 3) (some 1))
        ["cmd1", "cmd2", "cmd3"]).1.2).2 =
       (if (runPipe (0, subscribe (mkEngine 3) (some 1))
            ["cmd1", "cmd2", "cmd3"]).1.2.commands = [] then []
        else [(runPipe (0, subscribe (mkEngine 3) (some 1))
            ["cmd1", "cmd2", "cmd3"]).1.2.commands])) :=
  ⟨by decide, by decide, rfl, rfl, by decide,
    c1_size_triggered_closure (subscribe (mkEngine 3) (some 1))
      ["cmd1", "cmd2", "cmd3"] (by decide) (by decide) rfl rfl (by decide)⟩

/-- C2: in every engine state — the flag set or not — StartBlock sets the
block-forced flag and immediately closes the pending batch, FinishBlock
clears the flag and immediately closes the pending batch, whatever the
accumulated count and the threshold are (an empty pending batch produces
no render call); and whenever the flag is set, ProcessCommand only
appends and never performs a size-based closure. -/
theorem c2_block_markers_force_closure (e : Engine) (c : Cmd) :
    (StartBlock e).1.blockForced = true ∧
    (StartBlock e).1.commands = [] ∧
    flushesOf (StartBlock e).2 =
      (if e.commands = [] then [] else [e.commands]) ∧
    rendersOf (StartBlock e).2 =
      (if e.commands = [] then [] else e.subscribers) ∧
    (FinishBlock e).1.blockForced = false ∧
    (FinishBlock e).1.commands = [] ∧
    flushesOf (FinishBlock e).2 =
      (if e.commands = [] then [] else [e.commands]) ∧
    rendersOf (FinishBlock e).2 =
      (if e.commands = [] then [] else e.subscribers) ∧
    (e.blockForced = true →
      (ProcessCommand e c).1.commands = e.commands ++ [c] ∧
      flushesOf (ProcessCommand e c).2 = []) :=
  ⟨rfl, rfl, by unfold StartBlock; simp, by unfold StartBlock; simp,
    rfl, rfl, by unfold FinishBlock; simp, by unfold FinishBlock; simp,
    fun hb => ProcessCommand_miss e c (by rw [hb]; simp)⟩

/-- witness for C2 at two concrete states: an unblocked engine with a
pending command (StartBlock flushes what accumulated before the block
began) and a blocked engine (whose ProcessCommand implication is
non-vacuous). -/
theorem c2_witness :
    ((StartBlock ⟨2, false, ["x"], [some 1]⟩).1.blockForced = true ∧
     (StartBlock ⟨2, false, ["x"], [some 1]⟩).1.commands = [] ∧
     flushesOf (StartBlock ⟨2, false, ["x"], [some 1]⟩).2 =
       (if (⟨2, false, ["x"], [some 1]⟩ : Engine).commands = [] then []
        else [(⟨2, false, ["x"], [some 1]⟩ : Engine).commands]) ∧
     rendersOf (StartBlock ⟨2, false, ["x"], [some 1]⟩).2 =
       (if (⟨2, false, ["x"], [some 1]⟩ : Engine).commands = [] then []
        else (⟨2, false, ["x"], [some 1]⟩ : Engine).subscribers) ∧
     (FinishBlock ⟨2, false, ["x"], [some 1]⟩).1.blockForced = false ∧
     (FinishBlock ⟨2, false, ["x"], [some 1]⟩).1.commands = [] ∧
     flushesOf (FinishBlock ⟨2, false, ["x"], [some 1]⟩).2 =
       (if (⟨2, false, ["x"], [some 1]⟩ : Engine).commands = [] then []
        else [(⟨2, false, ["x"], [some 1]⟩ : Engine).commands]) ∧
     rendersOf (FinishBlock ⟨2, false, ["x"], [some 1]⟩).2 =
       (if (⟨2, false, ["x"], [some 1]⟩ : Engine).commands = [] then []
        else (⟨2, false, ["x"], [some 1]⟩ : Engine).subscribers) ∧
     ((⟨2, false, ["x"], [some 1]⟩ : Engine).blockForced = true →
       (ProcessCommand ⟨2, false, ["x"], [some 1]⟩ "y").1.commands =
         (⟨2, false, ["x"], [some 1]⟩ : Engine).commands ++ ["y"] ∧
       flushesOf (ProcessCommand ⟨2, false, ["x"], [some 1]⟩ "y").2 = [])) ∧
    ((StartBlock ⟨2, true, ["w"], [some 1]⟩).1.blockForced = true ∧
     (StartBlock ⟨2, true, ["w"], [some 1]⟩).1.commands = [] ∧
     flushesOf (StartBlock ⟨2, true, ["w"], [some 1]⟩).2 =
       (if (⟨2, true, ["w"], [some 1]⟩ : Engine).commands = [] then []
        else [(⟨2, true, ["w"], [some 1]⟩ : Engine).commands]) ∧
     rendersOf (StartBlock ⟨2, true, ["w"], [some 1]⟩).2 =
       (if (⟨2, true, ["w"], [some 1]⟩ : Engine).commands = [] then []
        else (⟨2, true, ["w"], [some 1]⟩ : Engine).subscribers) ∧
     (FinishBlock ⟨2, true, ["w"], [some 1]⟩).1.blockForced = false ∧
     (FinishBlock ⟨2, true, ["w"], [some 1]⟩).1.commands = [] ∧
     flushesOf (FinishBlock ⟨2, true, ["w"], [some 1]⟩).2 =
       (if (⟨2, true, ["w"], [some 1]⟩ : Engine).commands = [] then []
        else [(⟨2, true, ["w"], [some 1]⟩ : Engine).commands]) ∧
     rendersOf (FinishBlock ⟨2, true, ["w"], [some 1]⟩).2 =
       (if (⟨2, true, ["w"], [some 1]⟩ : Engine).commands = [] then []
        else (⟨2, true, ["w"], [some 1]⟩ : Engine).subscribers) ∧
     ((⟨2, true, ["w"], [some 1]⟩ : Engine).blockForced = true →
       (ProcessCommand ⟨2, true, ["w"], [some 1]⟩ "y").1.commands =
         (⟨2, true, ["w"], [some 1]⟩ : Engine).commands ++ ["y"] ∧
       flushesOf (ProcessCommand ⟨2, true, ["w"], [some 1]⟩ "y").2 = [])) :=
  ⟨c2_block_markers_force_closure ⟨2, false, ["x"], [some 1]⟩ "y",
    c2_block_markers_force_closure ⟨2, true, ["w"], [some 1]⟩ "y"⟩

/-- C3: the gate emits StartBlock on a left brace only when the depth moves
from 0 to 1, emits FinishBlock on a right brace only when the depth moves
from 1 to 0, forwards every other command unchanged and never forwards a
marker; consequently in the nested scenario with threshold 2 and input
left-brace, left-brace, a, right-brace, right-brace, b the only closure
during processing is the batch holding just a, and b is flushed only at
teardown. -/
theorem c3_gate_depth_transitions (d : Int) (t : Cmd)
    (h1 : t ≠ "\x7b") (h2 : t ≠ "\x7d") :
    gateStep d "\x7b" = (d + 1, if d = 0 then [Sig.start] else []) ∧
    gateStep d "\x7d" = (d - 1, if d = 1 then [Sig.finish] else []) ∧
    gateStep d t = (d, [Sig.fwd t]) ∧
    flushesOf (runPipe (0, subscribe (mkEngine 2) (some 1))
      ["\x7b", "\x7b", "a", "\x7d", "\x7d", "b"]).2 = [["a"]] ∧
    flushesOf (destructor (runPipe (0, subscribe (mkEngine 2) (some 1))
      ["\x7b", "\x7b", "a", "\x7d", "\x7d", "b"]).1.2).2 = [["b"]] := by
  refine ⟨by simp [gateStep], ?_, by simp [gateStep, h1, h2], by decide,
    by decide⟩
  unfold gateStep
  rw [if_neg (by decide), if_pos rfl]
  by_cases h : d = 1
  · subst h
    norm_num
  · rw [if_neg (by omega), if_neg h]

/-- witness for C3 at depth 5 and the ordinary command a. -/
theorem c3_witness :
    ("a" : Cmd) ≠ "\x7b" ∧ ("a" : Cmd) ≠ "\x7d" ∧
    (gateStep 5 "\x7b" = (5 + 1, if (5 : Int) = 0 then [Sig.start] else []) ∧
     gateStep 5 "\x7d" = (5 - 1, if (5 : Int) = 1 then [Sig.finish] else []) ∧
     gateStep 5 "a" = (5, [Sig.fwd "a"]) ∧
     flushesOf (runPipe (0, subscribe (mkEngine 2) (some 1))
       ["\x7b", "\x7b", "a", "\x7d", "\x7d", "b"]).2 = [["a"]] ∧
     flushesOf (destructor (runPipe (0, subscribe (mkEngine 2) (some 1))
       ["\x7b", "\x7b", "a", "\x7d", "\x7d", "b"]).1.2).2 = [["b"]]) :=
  ⟨by decide, by decide,
    c3_gate_depth_transitions 5 "a" (by decide) (by decide)⟩

/-- C4: whenever the pending batch is empty, closure makes no render call
through any trigger: DumpBatch itself, a StartBlock, a FinishBlock, and
teardown all produce no render event (and no closure event) from an empty
pending batch. -/
theorem c4_empty_closure_makes_no_render (e : Engine)
    (hc : e.commands = []) :
    flushesOf (DumpBatch e).2 = [] ∧
    rendersOf (DumpBatch e).2 = [] ∧
    rendersOf (StartBlock e).2 = [] ∧
    rendersOf (FinishBlock e).2 = [] ∧
    rendersOf (destructor e).2 = [] := by
  refine ⟨by simp [hc], by simp [hc], by unfold StartBlock; simp [hc],
    by unfold FinishBlock; simp [hc], ?_⟩
  rw [destructor_snd]
  split
  · simp [hc]
  · simp

/-- witness for C4 at an engine with an empty pending batch and one
subscriber. -/
theorem c4_witness :
    (⟨3, false, [], [some 1]⟩ : Engine).commands = [] ∧
    (flushesOf (DumpBatch ⟨3, false, [], [some 1]⟩).2 = [] ∧
     rendersOf (DumpBatch ⟨3, false, [], [some 1]⟩).2 = [] ∧
     rendersOf (StartBlock ⟨3, false, [], [some 1]⟩).2 = [] ∧
     rendersOf (FinishBlock ⟨3, false, [], [some 1]⟩).2 = [] ∧
     rendersOf (destructor ⟨3, false, [], [some 1]⟩).2 = []) :=
  ⟨rfl, c4_empty_closure_makes_no_render ⟨3, false, [], [some 1]⟩ rfl⟩

/-- C9: with a positive threshold, after each of the three public
operations the pending batch holds strictly fewer commands than the
threshold whenever the block-forced flag is off, and immediately after a
closure the pending batch is empty. -/
theorem c9_pending_batch_below_threshold (e : Engine) (c : Cmd)
    (hpos : 0 < e.bulkSize) (hrange : e.bulkSize < 2 ^ 64) :
    ((ProcessCommand e c).1.blockForced = false →
      (ProcessCommand e c).1.commands.length <
        toSizeT (ProcessCommand e c).1.bulkSize) ∧
    ((StartBlock e).1.blockForced = false →
      (StartBlock e).1.commands.length < toSizeT (StartBlock e).1.bulkSize) ∧
    ((FinishBlock e).1.blockForced = false →
      (FinishBlock e).1.commands.length <
        toSizeT (FinishBlock e).1.bulkSize) ∧
    (DumpBatch e).1.commands = [] := by
  have h0 : 0 < toSizeT e.bulkSize := by
    rw [toSizeT_eq_toNat e.bulkSize (le_of_lt hpos) hrange]
    omega
  refine ⟨?_, by simp, fun _ => by simpa using h0, rfl⟩
  intro hf
  rw [ProcessCommand_blockForced] at hf
  rw [ProcessCommand_bulkSize]
  by_cases hT : toSizeT e.bulkSize ≤ e.commands.length + 1
  · rw [(ProcessCommand_hit e c hf hT).1]
    simpa using h0
  · rw [(ProcessCommand_miss e c (fun hx => hT hx.2)).1]
    simp only [List.length_append, List.length_cons, List.length_nil]
    omega

/-- witness for C9 at a fresh engine with threshold 3. -/
theorem c9_witness :
    0 < (mkEngine 3).bulkSize ∧ (mkEngine 3).bulkSize < 2 ^ 64 ∧
    (((ProcessCommand (mkEngine 3) "a").1.blockForced = false →
      (ProcessCommand (mkEngine 3) "a").1.commands.length <
        toSizeT (ProcessCommand (mkEngine 3) "a").1.bulkSize) ∧
     ((StartBlock (mkEngine 3)).1.blockForced = false →
      (StartBlock (mkEngine 3)).1.commands.length <
        toSizeT (StartBlock (mkEngine 3)).1.bulkSize) ∧
     ((FinishBlock (mkEngine 3)).1.blockForced = false →
      (FinishBlock (mkEngine 3)).1.commands.length <
        toSizeT (FinishBlock (mkEngine 3)).1.bulkSize) ∧
     (DumpBatch (mkEngine 3)).1.commands = []) :=
  ⟨by decide, by decide,
    c9_pending_batch_below_threshold (mkEngine 3) "a" (by decide) (by decide)⟩

theorem unSubscribe_some (e : Engine) (h : Handle) :
    unSubscribe e (some h) = (eraseRemove h e.subscribers).map
      (fun l => { e with subscribers := l }) := rfl

theorem destructorIter_le_two (subs : List (Option Handle))
    (hlen : subs.length ≤ 2) (hns : ∀ o ∈ subs, o.isSome = true) :
    ∃ st, destructorIter 0 subs.length (subs, subs.length) = some st ∧
      st.2 = 0 := by
  suffices hs : (destructorIter 0 subs.length (subs, subs.length)).map
      (fun st => st.2) = some 0 by
    obtain ⟨st, h1, h2⟩ := Option.map_eq_some'.mp hs
    exact ⟨st, h1, h2⟩
  rcases subs with _ | ⟨o1, _ | ⟨o2, _ | ⟨o3, t⟩⟩⟩
  · rfl
  · obtain ⟨a, rfl⟩ := Option.isSome_iff_exists.mp (hns o1 (by simp))
    simp [destructorIter, unSubscribeMem, stdRemoveMem, eraseAtMem,
      List.getD]
  · obtain ⟨a, rfl⟩ := Option.isSome_iff_exists.mp (hns o1 (by simp))
    obtain ⟨b, rfl⟩ := Option.isSome_iff_exists.mp (hns o2 (by simp))
    by_cases hab : b = a
    · subst hab
      simp [destructorIter, unSubscribeMem, stdRemoveMem, eraseAtMem,
        List.getD]
    · simp [destructorIter, unSubscribeMem, stdRemoveMem, eraseAtMem,
        List.getD, hab]
  · simp at hlen

/-- counterexample to C5: an engine with three pairwise-distinct non-null
subscribers.  The first unSubscribe shifts the second handle into slot 0
territory, so the second loop iteration reads the third handle early and
removes it too; the third iteration then reads a stale slot still holding
the third handle and calls unSubscribe for a pointer no longer in the
vector, so std::remove returns end() and erase(end()) runs — outside
defined behaviour (modelled as none).  The claim that teardown always
leaves every subscriber unregistered fails at this input. -/
theorem c5_counterexample :
    (destructor ⟨3, false, [], [some 1, some 2, some 3]⟩).1 = none := by
  decide

/-- C5 amended: at teardown the trailing non-empty partial batch is
flushed when the block-forced flag is false and silently dropped when it
is true; and with at most two subscribers, all non-null, the teardown
loop does leave every subscriber unregistered. -/
theorem c5_teardown_flush_and_unregister (e : Engine)
    (hlen : e.subscribers.length ≤ 2)
    (hns : ∀ o ∈ e.subscribers, o.isSome = true) :
    (e.blockForced = false →
      flushesOf (destructor e).2 =
        (if e.commands = [] then [] else [e.commands])) ∧
    (e.blockForced = true → (destructor e).2 = []) ∧
    (∃ e', (destructor e).1 = some e' ∧ e'.subscribers = []) := by
  refine ⟨?_, ?_, ?_⟩
  · intro hb
    rw [destructor_snd, if_pos hb, flushesOf_DumpBatch]
  · intro hb
    rw [destructor_snd, if_neg (by simp [hb])]
  · obtain ⟨st, hst, hz⟩ := destructorIter_le_two e.subscribers hlen hns
    by_cases hb : e.blockForced = false
    · rw [destructor_fst_false e hb, hst]
      exact ⟨_, rfl, by simp [hz]⟩
    · rw [destructor_fst_true e (by revert hb; cases e.blockForced <;> simp),
        hst]
      exact ⟨_, rfl, by simp [hz]⟩

/-- witness for C5 at an engine with a trailing partial batch and two
distinct subscribers. -/
theorem c5_witness :
    (⟨3, false, ["x"], [some 1, some 2]⟩ : Engine).subscribers.length ≤ 2 ∧
    (∀ o ∈ (⟨3, false, ["x"], [some 1, some 2]⟩ : Engine).subscribers,
      o.isSome = true) ∧
    (((⟨3, false, ["x"], [some 1, some 2]⟩ : Engine).blockForced = false →
      flushesOf (destructor ⟨3, false, ["x"], [some 1, some 2]⟩).2 =
        (if (⟨3, false, ["x"], [some 1, some 2]⟩ : Engine).commands = []
         then []
         else [(⟨3, false, ["x"], [some 1, some 2]⟩ : Engine).commands])) ∧
     ((⟨3, false, ["x"], [some 1, some 2]⟩ : Engine).blockForced = true →
      (destructor ⟨3, false, ["x"], [some 1, some 2]⟩).2 = []) ∧
     (∃ e', (destructor ⟨3, false, ["x"], [some 1, some 2]⟩).1 = some e' ∧
       e'.subscribers = [])) :=
  ⟨by decide, by decide,
    c5_teardown_flush_and_unregister ⟨3, false, ["x"], [some 1, some 2]⟩
      (by decide) (by decide)⟩

/-- counterexample to C6: the value -1 is non-positive, yet the startup
check accepts it and the engine is constructed and run. -/
theorem c6_counterexample :
    (-1 : Int) ≤ 0 ∧ mainCheck (-1) = some (-1) := by decide

/-- C6 amended: the startup check rejects exactly the value 0 (the atoi
result 0, covering non-numeric arguments); a negative bulk size passes
validation, and its cast to size_t exceeds 2^63, so the size trigger of
the resulting engine cannot fire for any realistically sized batch. -/
theorem c6_only_zero_rejected (v : Int) (hr : -(2 ^ 31) ≤ v) :
    (mainCheck v = none ↔ v = 0) ∧
    (v < 0 → mainCheck v = some v ∧ 2 ^ 63 < toSizeT v) := by
  constructor
  · unfold mainCheck
    split
    · next hx => simp [hx]
    · next hx => simp [hx]
  · intro hv
    refine ⟨by unfold mainCheck; rw [if_neg (by omega)], ?_⟩
    unfold toSizeT
    omega

/-- witness for C6 at the accepted negative value -1. -/
theorem c6_witness :
    -(2 ^ 31) ≤ (-1 : Int) ∧
    ((mainCheck (-1) = none ↔ (-1 : Int) = 0) ∧
     ((-1 : Int) < 0 → mainCheck (-1) = some (-1) ∧ 2 ^ 63 < toSizeT (-1))) :=
  ⟨by decide, c6_only_zero_rejected (-1) (by decide)⟩

/-- C7: evaluation of unSubscribe at the inputs where the erase-remove
call misbehaves.  With the subscriber vector [o, a, o], removing o leaves
the vector [a, o]: one entry equal to o survives, against the claim that
all matching entries are removed.  With a handle that is not subscribed,
std::remove returns end() and erase is called on it, which is not a no-op
but undefined behaviour (modelled as none). -/
theorem c7_erase_remove_bug :
    (unSubscribe ⟨3, false, [], [some 1, some 2, some 1]⟩ (some 1)).map
      Engine.subscribers = some [some 2, some 1] ∧
    unSubscribe ⟨3, false, [], [some 2]⟩ (some 1) = none := by decide

/-- counterexample to C8: with two subscribers of which the first fails
inside its render step, the delivery loop of DumpBatch stops after the
failing subscriber — the second subscriber is never invoked and the
failure escapes the engine. -/
theorem c8_counterexample :
    renderLoop (fun h => h == 1) [1, 2] = ([1], true) := by decide

/-- C8 amended: the engine does not isolate render failures; the delivery
loop invokes the subscribers before the first failing one and that failing
one itself, skips every later subscriber, and lets the failure escape;
only when no subscriber fails are all of them invoked in order. -/
theorem c8_failure_aborts_delivery (throws : Handle → Bool)
    (subs : List Handle) :
    (renderLoop throws subs).1 =
      subs.takeWhile (fun h => !throws h) ++
        (subs.dropWhile (fun h => !throws h)).take 1 ∧
    (renderLoop throws subs).2 = subs.any throws := by
  induction subs with
  | nil => exact ⟨rfl, rfl⟩
  | cons h t ih =>
    by_cases hth : throws h = true
    · unfold renderLoop
      rw [if_pos hth]
      constructor
      · rw [List.takeWhile_cons, List.dropWhile_cons]
        simp [hth]
      · simp [hth]
    · unfold renderLoop
      rw [if_neg hth]
      constructor
      · rw [List.takeWhile_cons, List.dropWhile_cons]
        simp only [hth, Bool.not_false, if_true]
        simp only [Bool.not_eq_true] at hth
        simp [hth, ih.1]
      · simp only [Bool.not_eq_true] at hth
        simp [hth, ih.2]

theorem mem_of_mem_eraseRemove {h : Handle} {subs l : List (Option Handle)}
    (he : eraseRemove h subs = some l) : ∀ x ∈ l, x ∈ subs := by
  simp only [eraseRemove] at he
  split at he
  · exact absurd he (by simp)
  · injection he with he
    subst he
    intro x hx
    rcases List.mem_append.mp hx with h1 | h2
    · exact List.mem_of_mem_filter h1
    · exact List.drop_subset _ _ h2

/-- C10: in every reachable engine state, the subscriber vector holds no
null pointer — subscribe filters null out — and therefore the unguarded
render loop of DumpBatch only ever dereferences non-null pointers. -/
theorem c10_render_loop_never_null (e : Engine) (hr : Reach e) :
    (∀ o ∈ e.subscribers, o.isSome = true) ∧
    (∀ o, Ev.render o ∈ (DumpBatch e).2 → o.isSome = true) := by
  have main : ∀ o ∈ e.subscribers, o.isSome = true := by
    induction hr with
    | init bulkSize => intro o ho; simp [mkEngine] at ho
    | sub o _ ih =>
      intro x hx
      unfold subscribe at hx
      by_cases ho : o.isSome = true
      · rw [if_pos ho] at hx
        simp only at hx
        rcases List.mem_append.mp hx with h1 | h2
        · exact ih x h1
        · rcases List.mem_singleton.mp h2 with rfl
          exact ho
      · rw [if_neg ho] at hx
        exact ih x hx
    | unsub o _ hu ih =>
      intro x hx
      cases o with
      | none =>
        rw [show unSubscribe _ none = some _ from rfl] at hu
        injection hu with hu
        subst hu
        exact ih x hx
      | some h =>
        rw [unSubscribe_some] at hu
        cases her : eraseRemove h _ with
        | none => rw [her] at hu; cases hu
        | some l =>
          rw [her] at hu
          injection hu with hu
          subst hu
          simp only at hx
          exact ih x (mem_of_mem_eraseRemove her x hx)
    | proc c _ ih =>
      intro x hx
      rw [ProcessCommand_subscribers] at hx
      exact ih x hx
    | startB _ ih =>
      intro x hx
      rw [StartBlock_fst] at hx
      exact ih x hx
    | finishB _ ih =>
      intro x hx
      rw [FinishBlock_fst] at hx
      exact ih x hx
  refine ⟨main, ?_⟩
  intro o ho
  rw [DumpBatch_snd, List.mem_append] at ho
  rcases ho with h1 | h2
  · split at h1
    · cases h1
    · rcases List.mem_cons.mp h1 with heq | hmem
      · cases heq
      · rcases List.mem_map.mp hmem with ⟨x, hxmem, hxeq⟩
        injection hxeq with hxeq
        subst hxeq
        exact main x hxmem
  · exfalso
    unfold notify at h2
    rcases List.mem_filterMap.mp h2 with ⟨x, _, hxeq⟩
    cases x with
    | none => cases hxeq
    | some h => simp at hxeq

/-- witness for C10 at the engine obtained by one subscribe call on a
fresh engine. -/
theorem c10_witness :
    (∀ o ∈ (subscribe (mkEngine 3) (some 1)).subscribers,
      o.isSome = true) ∧
    (∀ o, Ev.render o ∈ (DumpBatch (subscribe (mkEngine 3) (some 1))).2 →
      o.isSome = true) :=
  c10_render_loop_never_null (subscribe (mkEngine 3) (some 1))
    (Reach.sub (some 1) (Reach.init 3))

end Bulk
